import Mathlib

/-!
Verification of the analysis-creation core of the Playbook generator
(`src/app/api/analyses/create/route.ts`), shallowly embedded in Lean.

Strings manipulated character-by-character are modelled as `List Char`;
JavaScript numbers arising from integer scores are modelled exactly
(`Int`, with the `round` of exact rational arithmetic for the composite
score); values that may be `undefined`/`NaN` are modelled as `Option Int`
(`none` = the score is absent or non-numeric, so arithmetic yields `NaN`).
External effects (session check, database, model API, `JSON.parse`) are
oracles supplied in an `Env` record; the route handler is a pure function
of the oracle record and an explicit database state.
-/

set_option maxRecDepth 20000

instance {e a : Type} [DecidableEq e] [DecidableEq a] : DecidableEq (Except e a) :=
  fun x y =>
    match x, y with
    | .error x1, .error y1 =>
      if h : x1 = y1 then isTrue (by rw [h]) else isFalse (by simp [h])
    | .error _, .ok _ => isFalse (by simp)
    | .ok _, .error _ => isFalse (by simp)
    | .ok x1, .ok y1 =>
      if h : x1 = y1 then isTrue (by rw [h]) else isFalse (by simp [h])

namespace Playbook

/-! Scoring (`calculateEffortImpactScore`, route.ts lines 395-399) -/

/-- Source formula Math.round(((impact * 2) - effort) / 10 * 100), in exact arithmetic. -/
def calculateEffortImpactScore (effort impact : Int) : Int :=
  round ((((impact * 2 : ℚ) - effort) / 10) * 100)

/-- Score computation when
either score may be absent/non-numeric (`undefined` arithmetic gives `NaN`,
modelled as `none`). -/
def calculateEffortImpactScoreOpt (effort impact : Option Int) : Option Int :=
  match effort, impact with
  | some e, some i => some (calculateEffortImpactScore e i)
  | _, _ => none

/-! Briefs and candidates -/

/-- A candidate brief as parsed from the model's JSON array.  Scores are
`Option Int`: `none` models a field that is absent or not a number. -/
structure RawBrief where
  title : String
  description : String
  why_it_matters : String
  implementation_steps : List String
  effort_score : Option Int
  impact_score : Option Int
  keywords : List String
  timeline : String
deriving DecidableEq, Repr

/-- A candidate after `generateCategoryBriefs` attaches the category and the
computed `effort_impact_score` (route.ts lines 383-387). -/
structure Brief extends RawBrief where
  category : String
  effort_impact_score : Option Int
deriving DecidableEq, Repr

/-- The sort key `(x.effort_impact_score || 0)` of route.ts line 225:
`NaN` (modelled `none`) is falsy in JavaScript, so it reads as `0`. -/
def scoreKey (b : Brief) : Int :=
  b.effort_impact_score.getD 0

/-! Stable descending sort and selection (route.ts lines 224-226)

`briefs.sort((a, b) => (b.effort_impact_score || 0) - (a.effort_impact_score || 0))`
is a stable sort (guaranteed by ECMAScript) under a consistent comparator,
hence equal to the stable descending insertion sort below, followed by
`.slice(0, briefCount)`. -/

/-- Insert `a` in front of the first element whose key is `≤ key a`
(keeps `a` before later-encountered elements of equal key). -/
def insertDesc (key : α → Int) (a : α) : List α → List α
  | [] => [a]
  | b :: bs => if key b ≤ key a then a :: b :: bs else b :: insertDesc key a bs

/-- Stable insertion sort, descending by `key`. -/
def sortDesc (key : α → Int) : List α → List α
  | [] => []
  | a :: as => insertDesc key a (sortDesc key as)

/-- Sort descending by composite score, then `.slice(0, briefCount)`. -/
def selectBriefs (pool : List Brief) (briefCount : Nat) : List Brief :=
  (sortDesc scoreKey pool).take briefCount

/-! Request data (`AnalysisFormData`, route.ts lines 32-57) -/

structure TechnicalData where
  crawlerAccessible : Bool
  hasSchema : Bool
  ttfb : Int
  wikipediaPresence : Bool
  wikidataPresence : Bool
  googleBusinessProfile : Bool
  redditActivity : String
  reviewCount : Int
  reviewSentiment : String
deriving DecidableEq, Repr

structure AnalysisFormData where
  customerName : String
  topics : List String
  competitors : List String
  visibilityScore : Int
  technicalData : TechnicalData
  technicalAnalysis : String
  customPrompt : String
  categoriesSelected : List String
  useMostImpactful : Bool
  briefCount : Nat
deriving DecidableEq, Repr

/-! Global string replacement (JavaScript `String.replace(/pat/g, rep)`)

Left-to-right scan, non-overlapping matches, each match consumed whole.
A fuel argument (one unit per scanned character) keeps the recursion
structural; `replaceAll` supplies `l.length` fuel, which is always enough
because every step consumes at least one character. -/

def startsWithPat : List Char → List Char → Bool
  | [], _ => true
  | _ :: _, [] => false
  | p :: ps, c :: cs => if p = c then startsWithPat ps cs else false

def replaceAllAux (pat rep : List Char) : Nat → List Char → List Char
  | _, [] => []
  | 0, l => l
  | fuel + 1, c :: cs =>
    if startsWithPat pat (c :: cs) then
      rep ++ replaceAllAux pat rep fuel (cs.drop (pat.length - 1))
    else
      c :: replaceAllAux pat rep fuel cs

def replaceAll (pat rep l : List Char) : List Char :=
  replaceAllAux pat rep l.length l

/-- Does `pat` occur as a contiguous substring of `l`? -/
def occursB (pat : List Char) : List Char → Bool
  | [] => pat.isEmpty
  | c :: cs => startsWithPat pat (c :: cs) || occursB pat cs

/-! Prompt template engine (`createCompetitiveAnalysisPrompt`,
`getDefaultPrompt`, route.ts lines 290-323 and 401-409) -/

def getDefaultPrompt : String :=
  "Give me 20 clear reasons why [CUSTOMER_NAME] is not winning in the AI visibility space compared to the competitors. Do a thorough analysis of the competitors and explain what they are doing right, that [CUSTOMER_NAME] is not doing. Do deep research to understand the situation.\n\nCompetitors to analyze: [COMPETITORS]\nCurrent visibility score: [VISIBILITY_SCORE]%\nFocus topics: [TOPICS]\n\nProvide specific, actionable insights that can be turned into implementation briefs."

/-- Comma join, `list.join(', ')`. -/
def joinComma (l : List String) : List Char :=
  (String.intercalate ", " l).data

def yesNo (b : Bool) : List Char :=
  if b then "Yes".data else "No".data

/-- Whitespace as trimmed by `String.prototype.trim` (ASCII core). -/
def isWhitespaceChar (c : Char) : Bool :=
  c = ' ' || c = '\t' || c = '\n' || c = '\r'

/-- Truthiness of `formData.technicalAnalysis && formData.technicalAnalysis.trim()`,
negated: true when the string is empty or all whitespace. -/
def isBlank (s : String) : Bool :=
  s.data.all isWhitespaceChar

/-- The fixed technical-context block (template literal at route.ts
lines 301-311). -/
def technicalContextBase (fd : AnalysisFormData) : List Char :=
  "\nTechnical Analysis Context:\n- Crawler Accessible: ".data
    ++ yesNo fd.technicalData.crawlerAccessible
    ++ "\n- Has Schema Markup: ".data ++ yesNo fd.technicalData.hasSchema
    ++ "\n- Time to First Byte: ".data ++ (toString fd.technicalData.ttfb).data ++ "ms".data
    ++ "\n- Wikipedia Presence: ".data ++ yesNo fd.technicalData.wikipediaPresence
    ++ "\n- Google Business Profile: ".data ++ yesNo fd.technicalData.googleBusinessProfile
    ++ "\n- Reddit Activity: ".data ++ fd.technicalData.redditActivity.data
    ++ "\n- Review Count: ".data ++ (toString fd.technicalData.reviewCount).data
    ++ "\n- Review Sentiment: ".data ++ fd.technicalData.reviewSentiment.data
    ++ "\n  ".data

/-- The free-text addendum appended when the analysis text is non-empty
and non-whitespace (route.ts lines 313-320). -/
def technicalAddendum (fd : AnalysisFormData) : List Char :=
  "\n\nAdditional Technical Analysis:\n".data
    ++ fd.technicalAnalysis.data ++ "\n    ".data

/-- The whole appended block: fixed part plus conditional addendum. -/
def technicalContext (fd : AnalysisFormData) : List Char :=
  technicalContextBase fd
    ++ (if isBlank fd.technicalAnalysis then [] else technicalAddendum fd)

/-- Fallback `formData.customPrompt || getDefaultPrompt()`. -/
def effectiveTemplate (fd : AnalysisFormData) : String :=
  if fd.customPrompt = "" then getDefaultPrompt else fd.customPrompt

/-- The four chained `.replace(/token/g, value)` calls of route.ts
lines 294-298 (applied innermost first, in source order), followed by
appending the technical context. -/
def createCompetitiveAnalysisPrompt (fd : AnalysisFormData) : List Char :=
  replaceAll "[TOPICS]".data (joinComma fd.topics)
    (replaceAll "[VISIBILITY_SCORE]".data (toString fd.visibilityScore).data
      (replaceAll "[COMPETITORS]".data (joinComma fd.competitors)
        (replaceAll "[CUSTOMER_NAME]".data fd.customerName.data
          (effectiveTemplate fd).data)))
    ++ "\n\n".data ++ technicalContext fd

/-! JSON-array extraction (`briefText.match(/\[[\s\S]*\]/)`,
route.ts line 374) -/

/-- The suffix of `l` starting at the first character satisfying `p`
(`none` when no character does). -/
def cutFromFirst (p : Char → Bool) : List Char → Option (List Char)
  | [] => none
  | c :: cs => if p c then some (c :: cs) else cutFromFirst p cs

/-- The greedy regex `\[[\s\S]*\]`: from the first `[` to the last `]`,
provided a `]` occurs after the first `[`. -/
def extractJsonArray (l : List Char) : Option (List Char) :=
  match cutFromFirst (fun c => c = '[') l with
  | none => none
  | some t =>
    match cutFromFirst (fun c => c = ']') t.reverse with
    | none => none
    | some u => some u.reverse

/-- What the greedy match means, stated on decompositions: `s` starts at
the first `[` of the text (no `[` before it), ends at the last `]` of the
text (no `]` after it), and is bracketed. -/
def ExtractSpec (l s : List Char) : Prop :=
  ∃ pre mid post, l = pre ++ s ++ post ∧ s = '[' :: (mid ++ [']'])
    ∧ '[' ∉ pre ∧ ']' ∉ post

/-! Categories (`BRIEF_CATEGORIES`, route.ts lines 59-69) -/

def BRIEF_CATEGORIES : List String :=
  ["Technology",
   "Platform Presence",
   "Content Structure",
   "Content Types",
   "Reviews and Testimonials",
   "PR Outreach and LLM Seeding",
   "Social Engagement and Community Strategy",
   "Multimodal and Visual Optimization",
   "Data Authority and Proprietary Statistics"]

/-- route.ts lines 96-100: most-impactful mode and an empty selection both
fall back to the full category list. -/
def categoriesToUse (useMostImpactful : Bool) (selected : List String) : List String :=
  if useMostImpactful then BRIEF_CATEGORIES
  else if selected.length > 0 then selected
  else BRIEF_CATEGORIES

/-! External effects as oracles

`verifySession`, `request.json()`, the database client, the model API and
`JSON.parse` are outside the core: each is an oracle recorded in `Env`.
The route handler is then a pure function of `Env` and the database state. -/

/-- Database state: analysis records (id, status) and persisted briefs
(analysis id, brief). `nextId` is the id the next `INSERT ... RETURNING id`
yields. -/
structure Db where
  nextId : Nat
  analyses : List (Nat × String)
  briefs : List (Nat × Brief)
deriving DecidableEq, Repr

structure Env where
  /-- Result of `verifySession()`. -/
  authOk : Bool
  /-- Parsed body from `request.json()`: `none` models a body that fails to parse. -/
  body? : Option AnalysisFormData
  /-- Whether `client.connect()` in `POST` succeeds. -/
  connect1Ok : Bool
  /-- the `INSERT INTO analyses` statement succeeds. -/
  insertAnalysisOk : Bool
  /-- Whether `process.env.ANTHROPIC_API_KEY` is set. -/
  apiKey : Bool
  /-- the shared competitive-analysis API call: error or the analysis text. -/
  competitive : Except Unit String
  /-- the per-category API call: error or the response text. -/
  categoryResponse : String → Except Unit (List Char)
  /-- Result of `JSON.parse` on the extracted array substring. -/
  jsonParse : List Char → Except Unit (List RawBrief)
  /-- Whether `client.connect()` in `generateBriefs` succeeds. -/
  connect2Ok : Bool
  /-- Value `some k`: the `INSERT INTO briefs` for the k-th selected brief
  (0-based) throws; `none`: all brief inserts succeed. -/
  briefInsertFailAt : Option Nat
  /-- the `UPDATE analyses SET status = 'completed'` statement succeeds. -/
  updateOk : Bool

/-- Model of `generateCategoryBriefs` (route.ts lines 325-393): one API call, JSON
extraction, parse, then attach category and composite score.  The
surrounding `try/catch` turns every failure (API call throw, `JSON.parse`
throw) into an empty candidate list, and a missing bracketed substring
returns `[]` directly. -/
def generateCategoryBriefs (jsonParse : List Char → Except Unit (List RawBrief))
    (category : String) (resp : Except Unit (List Char)) : List Brief :=
  match resp with
  | .error _ => []
  | .ok briefText =>
    match extractJsonArray briefText with
    | none => []
    | some s =>
      match jsonParse s with
      | .error _ => []
      | .ok raws =>
        raws.map fun b =>
          { toRawBrief := b
            category := category
            effort_impact_score :=
              calculateEffortImpactScoreOpt b.effort_score b.impact_score }

/-- The candidate pool: per-category results appended in category order
(route.ts lines 213-221). -/
def gatherCandidates (env : Env) (cats : List String) : List Brief :=
  (cats.map fun c => generateCategoryBriefs env.jsonParse c (env.categoryResponse c)).flatten

/-- Outcome of `generateBriefs`: the value (or propagated error), the
database after brief inserts, and the external API calls made. -/
structure GenOut where
  result : Except Unit (List Brief)
  db : Db
  calls : List String

/-- The `INSERT INTO briefs` loop (route.ts lines 233-261): briefs are
inserted one at a time; a failing insert leaves the earlier inserts in
place and propagates the error. -/
def insertBriefs (failAt : Option Nat) (analysisId : Nat) (selected : List Brief)
    (db : Db) : Except Unit Db :=
  match failAt with
  | some k =>
    if k < selected.length then
      .error ⟨⟩
    else
      .ok { db with briefs := db.briefs ++ selected.map fun b => (analysisId, b) }
  | none => .ok { db with briefs := db.briefs ++ selected.map fun b => (analysisId, b) }

/-- But a failure at index `k` still persists the first `k` briefs. -/
def insertBriefsDb (failAt : Option Nat) (analysisId : Nat) (selected : List Brief)
    (db : Db) : Db :=
  match failAt with
  | some k =>
    if k < selected.length then
      { db with briefs := db.briefs ++ (selected.take k).map fun b => (analysisId, b) }
    else
      { db with briefs := db.briefs ++ selected.map fun b => (analysisId, b) }
  | none => { db with briefs := db.briefs ++ selected.map fun b => (analysisId, b) }

/-- Model of `generateBriefs` (route.ts lines 186-288): check the API key, make the
shared competitive-analysis call, gather per-category candidates, sort and
slice, persist, and return the selected briefs; all failures other than
per-category ones propagate. -/
def generateBriefs (env : Env) (fd : AnalysisFormData) (analysisId : Nat)
    (db : Db) : GenOut :=
  if ¬ env.apiKey then
    { result := .error ⟨⟩, db := db, calls := [] }
  else
    match env.competitive with
    | .error _ => { result := .error ⟨⟩, db := db, calls := ["competitive"] }
    | .ok _ =>
      let calls := "competitive" :: fd.categoriesSelected.map (fun c => "category:" ++ c)
      let pool := gatherCandidates env fd.categoriesSelected
      let selected := selectBriefs pool fd.briefCount
      if ¬ env.connect2Ok then
        { result := .error ⟨⟩, db := db, calls := calls }
      else
        match insertBriefs env.briefInsertFailAt analysisId selected db with
        | .error _ =>
          { result := .error ⟨⟩
            db := insertBriefsDb env.briefInsertFailAt analysisId selected db
            calls := calls }
        | .ok db' => { result := .ok selected, db := db', calls := calls }

/-- The route handler's observable outcome. -/
inductive Resp
  /-- Status 401, `verifySession` failed. -/
  | unauthorized
  /-- Status 400, customer name missing. -/
  | badRequest
  /-- Status 500, any propagated error. -/
  | serverError
  /-- Status 200 with the analysis id and the number of briefs persisted. -/
  | success (analysisId : Nat) (briefCount : Nat)
deriving DecidableEq, Repr

def Resp.isSuccess : Resp → Bool
  | .success _ _ => true
  | _ => false

structure PostOut where
  resp : Resp
  db : Db
  calls : List String

/-- Model of `POST` (route.ts lines 71-184): auth gate, body parse, customer-name
validation, category fallback, analysis insert with status `processing`,
brief generation, then the status update to `completed`; every thrown
error is caught and surfaced as a 500 with no further status write. -/
def POST (env : Env) (db : Db) : PostOut :=
  if ¬ env.authOk then
    { resp := .unauthorized, db := db, calls := [] }
  else
    match env.body? with
    | none => { resp := .serverError, db := db, calls := [] }
    | some fd =>
      if fd.customerName = "" then
        { resp := .badRequest, db := db, calls := [] }
      else
        let cats := categoriesToUse fd.useMostImpactful fd.categoriesSelected
        if ¬ env.connect1Ok then
          { resp := .serverError, db := db, calls := [] }
        else if ¬ env.insertAnalysisOk then
          { resp := .serverError, db := db, calls := [] }
        else
          let analysisId := db.nextId
          let db1 : Db :=
            { db with
              nextId := db.nextId + 1
              analyses := db.analyses ++ [(analysisId, "processing")] }
          let gen := generateBriefs env { fd with categoriesSelected := cats } analysisId db1
          match gen.result with
          | .error _ => { resp := .serverError, db := gen.db, calls := gen.calls }
          | .ok selected =>
            if ¬ env.updateOk then
              { resp := .serverError, db := gen.db, calls := gen.calls }
            else
              { resp := .success analysisId selected.length
                db := { gen.db with
                        analyses := gen.db.analyses.map fun r =>
                          if r.1 = analysisId then (r.1, "completed") else r }
                calls := gen.calls }

/-! Client-side form constraints on the brief count
(src/app/analyze/new/page.tsx): the range slider carries the bounds and
the initial form state carries the default; the API route itself performs
no range check on `briefCount`. -/

/-- Initial form state `briefCount: 15` (page.tsx line 44). -/
def formInitialBriefCount : Nat := 15

/-- Range-slider attribute `min="1"` on the brief-count input (page.tsx line 287). -/
def briefCountSliderMin : Nat := 1

/-- Range-slider attribute `max="30"` on the brief-count input (page.tsx line 288). -/
def briefCountSliderMax : Nat := 30

/-- Normalising an absent (`NaN`) composite score to the `0` the comparator
reads: leaves present scores unchanged. -/
def withScoreZero (b : Brief) : Brief :=
  { b with effort_impact_score := some (scoreKey b) }

/-! Concrete fixtures used to exercise the model. -/

def tdFix : TechnicalData :=
  { crawlerAccessible := true, hasSchema := false, ttfb := 120,
    wikipediaPresence := false, wikidataPresence := true,
    googleBusinessProfile := true, redditActivity := "low",
    reviewCount := 7, reviewSentiment := "mixed" }

def fdFix : AnalysisFormData :=
  { customerName := "Acme", topics := ["search"], competitors := ["X", "Y"],
    visibilityScore := 42, technicalData := tdFix, technicalAnalysis := "",
    customPrompt := "p", categoriesSelected := ["Technology", "Content Types"],
    useMostImpactful := false, briefCount := 3 }

/-- Candidate with both scores present: composite (2*9-2)*10 = 160. -/
def rawHigh : RawBrief :=
  { title := "high", description := "d", why_it_matters := "w",
    implementation_steps := ["s1", "s2"], effort_score := some 2,
    impact_score := some 9, keywords := ["k"], timeline := "2-3 weeks" }

/-- Candidate with both scores present: composite (2*3-8)*10 = -20. -/
def rawLow : RawBrief :=
  { title := "low", description := "d", why_it_matters := "w",
    implementation_steps := ["s1"], effort_score := some 8,
    impact_score := some 3, keywords := [], timeline := "1 week" }

/-- Candidate whose effort score is absent: composite is `NaN` (`none`). -/
def rawNaN : RawBrief :=
  { title := "nan", description := "d", why_it_matters := "w",
    implementation_steps := [], effort_score := none,
    impact_score := some 5, keywords := [], timeline := "1 week" }

/-- The brief the pipeline builds from `rawNaN` for category Technology. -/
def briefNaN : Brief :=
  { toRawBrief := rawNaN, category := "Technology", effort_impact_score := none }

def respText : List Char := "json: [x] end".data

def parseFix : List Char → Except Unit (List RawBrief) := fun s =>
  if s = "[bad]".data then .error ⟨⟩ else .ok [rawHigh, rawLow]

def db0 : Db := { nextId := 0, analyses := [], briefs := [] }

def envFix : Env :=
  { authOk := true, body? := some fdFix, connect1Ok := true,
    insertAnalysisOk := true, apiKey := true, competitive := .ok "analysis",
    categoryResponse := fun _ => .ok respText, jsonParse := parseFix,
    connect2Ok := true, briefInsertFailAt := none, updateOk := true }

/-- Request with an out-of-range brief count and a single category. -/
def fd31 : AnalysisFormData :=
  { fdFix with
    briefCount := 31
    categoriesSelected := ["Technology"] }

def env31 : Env := { envFix with body? := some fd31 }

/-- Template-substitution fixture: all four tokens, one unknown token, one
repeated token, blank free-text analysis. -/
def fdSub : AnalysisFormData :=
  { fdFix with
    technicalAnalysis := "  "
    customPrompt := "Hello [CUSTOMER_NAME] and [COMPETITORS] at [VISIBILITY_SCORE] on [TOPICS] with [UNKNOWN] again [CUSTOMER_NAME]" }

/-- Same fixture with a non-blank free-text analysis. -/
def fdSub2 : AnalysisFormData := { fdSub with technicalAnalysis := "note" }

/-- Sequential-substitution fixture: the customer name is itself a
recognised token. -/
def fdSeq : AnalysisFormData :=
  { fdFix with
    customerName := "[TOPICS]"
    topics := ["t"]
    customPrompt := "[CUSTOMER_NAME]" }

/-- Run with one well-formed category and one whose bracketed substring
fails to parse. -/
def fdMixed : AnalysisFormData :=
  { fdFix with
    categoriesSelected := ["Technology", "Bad"]
    briefCount := 5 }

def envMixed : Env :=
  { envFix with
    body? := some fdMixed
    categoryResponse := fun c => .ok (if c = "Bad" then "x [bad] y".data else respText) }

/-- Run whose pool holds one negative-score brief and one NaN-score brief. -/
def fdNaN : AnalysisFormData :=
  { fdFix with
    categoriesSelected := ["Technology"]
    briefCount := 1 }

def envNaN : Env :=
  { envFix with
    body? := some fdNaN
    jsonParse := fun _ => .ok [rawLow, rawNaN] }

def envNoAuth : Env := { envFix with authOk := false }

def envBlankName : Env :=
  { envFix with body? := some { fdFix with customerName := "" } }

/-- Template with no recognised (and no unrecognised) tokens. -/
def fdPlain : AnalysisFormData :=
  { fdFix with customPrompt := "Just analyze the market." }

/-- Empty category selection without the most-impactful flag. -/
def fdNine : AnalysisFormData :=
  { fdFix with
    categoriesSelected := []
    useMostImpactful := false }

def envNine : Env := { envFix with body? := some fdNine }

/-- Candidate brief with a present negative composite score, as the
pipeline builds it from `rawLow`. -/
def briefLow : Brief :=
  { toRawBrief := rawLow, category := "Technology", effort_impact_score := some (-20) }

def envNoKey : Env := { envFix with apiKey := false }

/-! Theorems -/

/-- The rounding always resolves exactly: the composite score is
`(2*impact - effort) * 10` for all integer inputs. -/
theorem calculateEffortImpactScore_closed (effort impact : Int) :
    calculateEffortImpactScore effort impact = (2 * impact - effort) * 10 := by
  unfold calculateEffortImpactScore
  have h : (((impact * 2 : ℚ) - effort) / 10) * 100 = ((2 * impact - effort) * 10 : Int) := by
    push_cast
    ring
  rw [h, round_intCast]

theorem mem_insertDesc (key : α → Int) (a : α) (l : List α) (x : α) :
    x ∈ insertDesc key a l ↔ x = a ∨ x ∈ l := by
  induction l with
  | nil => simp [insertDesc]
  | cons b bs ih =>
    by_cases h : key b ≤ key a
    · simp [insertDesc, h]
    · simp [insertDesc, h, ih]
      tauto

theorem insertDesc_perm (key : α → Int) (a : α) (l : List α) :
    List.Perm (insertDesc key a l) (a :: l) := by
  induction l with
  | nil => simp [insertDesc]
  | cons b bs ih =>
    by_cases h : key b ≤ key a
    · simp [insertDesc, h]
    · simp only [insertDesc, if_neg h]
      exact List.Perm.trans (ih.cons b) (List.Perm.swap a b bs)

theorem sortDesc_perm (key : α → Int) (l : List α) :
    List.Perm (sortDesc key l) l := by
  induction l with
  | nil => simp [sortDesc]
  | cons a as ih =>
    exact List.Perm.trans (insertDesc_perm key a _) (ih.cons a)

theorem length_sortDesc (key : α → Int) (l : List α) :
    (sortDesc key l).length = l.length :=
  (sortDesc_perm key l).length_eq

theorem pairwise_insertDesc (key : α → Int) (a : α) (l : List α)
    (h : l.Pairwise (fun x y => key y ≤ key x)) :
    (insertDesc key a l).Pairwise (fun x y => key y ≤ key x) := by
  induction l with
  | nil => simp [insertDesc]
  | cons b bs ih =>
    rcases List.pairwise_cons.mp h with ⟨hb, hbs⟩
    by_cases hba : key b ≤ key a
    · simp only [insertDesc, if_pos hba]
      refine List.pairwise_cons.mpr ⟨?_, h⟩
      intro x hx
      rcases List.mem_cons.mp hx with rfl | hx
      · exact hba
      · exact le_trans (hb x hx) hba
    · simp only [insertDesc, if_neg hba]
      refine List.pairwise_cons.mpr ⟨?_, ih hbs⟩
      intro x hx
      rcases (mem_insertDesc key a bs x).mp hx with rfl | hx
      · exact le_of_lt (lt_of_not_le hba)
      · exact hb x hx

theorem pairwise_sortDesc (key : α → Int) (l : List α) :
    (sortDesc key l).Pairwise (fun x y => key y ≤ key x) := by
  induction l with
  | nil => simp [sortDesc]
  | cons a as ih => exact pairwise_insertDesc key a _ ih

/-- Stability, filter form: inserting `a` puts it before exactly the
elements of equal key, so filtering by any key value commutes. -/
theorem filter_insertDesc (key : α → Int) (a : α) (l : List α) (k : Int) :
    (insertDesc key a l).filter (fun x => key x = k)
      = if key a = k then a :: l.filter (fun x => key x = k)
        else l.filter (fun x => key x = k) := by
  induction l with
  | nil =>
    by_cases h : key a = k <;> simp [insertDesc, h]
  | cons b bs ih =>
    by_cases hba : key b ≤ key a
    · simp only [insertDesc, if_pos hba]
      by_cases hak : key a = k <;> simp [List.filter_cons, hak]
    · simp only [insertDesc, if_neg hba]
      have hab : key a < key b := lt_of_not_le hba
      by_cases hak : key a = k
      · have hbk : key b ≠ k := by omega
        simp [List.filter_cons, ih, hak, hbk]
      · simp [List.filter_cons, ih, hak]

/-- Stability of the sort: the elements with any fixed key value appear in
the sorted output in their original order. -/
theorem filter_sortDesc (key : α → Int) (l : List α) (k : Int) :
    (sortDesc key l).filter (fun x => key x = k) = l.filter (fun x => key x = k) := by
  induction l with
  | nil => simp [sortDesc]
  | cons a as ih =>
    have h := filter_insertDesc key a (sortDesc key as) k
    by_cases hak : key a = k
    · simp only [sortDesc, h, if_pos hak, ih, List.filter_cons, hak]
      simp
    · simp only [sortDesc, h, if_neg hak, ih, List.filter_cons]
      simp [hak]

/-- Evaluation form of the composite score on present scores. -/
theorem calcOpt_some (e i : Int) :
    calculateEffortImpactScoreOpt (some e) (some i) = some ((2 * i - e) * 10) := by
  simp [calculateEffortImpactScoreOpt, calculateEffortImpactScore_closed]

theorem calcOpt_none_left (i : Option Int) :
    calculateEffortImpactScoreOpt none i = none := rfl

theorem calcOpt_right_none (e : Option Int) :
    calculateEffortImpactScoreOpt e none = none := by
  cases e <;> rfl

theorem insertDesc_map (key : α → Int) (f : α → α) (hkey : ∀ x, key (f x) = key x)
    (a : α) (l : List α) :
    insertDesc key (f a) (l.map f) = (insertDesc key a l).map f := by
  induction l with
  | nil => simp [insertDesc]
  | cons b bs ih =>
    by_cases h : key b ≤ key a
    · simp [insertDesc, hkey, h]
    · simp [insertDesc, hkey, h, ih]

/-- A transformation that preserves the sort key commutes with the sort:
the sort looks only at the keys. -/
theorem sortDesc_map (key : α → Int) (f : α → α) (hkey : ∀ x, key (f x) = key x)
    (l : List α) :
    sortDesc key (l.map f) = (sortDesc key l).map f := by
  induction l with
  | nil => simp [sortDesc]
  | cons a as ih => simp [sortDesc, ih, insertDesc_map key f hkey]

theorem replaceAllAux_of_not_occurs (pat rep : List Char) (fuel : Nat) (l : List Char)
    (h : occursB pat l = false) : replaceAllAux pat rep fuel l = l := by
  induction fuel generalizing l with
  | zero => cases l <;> rfl
  | succ fuel ih =>
    cases l with
    | nil => rfl
    | cons c cs =>
      simp only [occursB, Bool.or_eq_false_iff] at h
      simp only [replaceAllAux, h.1, Bool.false_eq_true, if_false]
      rw [ih cs h.2]

/-- If the pattern does not occur in the text, replacement is the identity. -/
theorem replaceAll_of_not_occurs (pat rep l : List Char)
    (h : occursB pat l = false) : replaceAll pat rep l = l :=
  replaceAllAux_of_not_occurs pat rep l.length l h

theorem cutFromFirst_eq_none_iff (p : Char → Bool) (l : List Char) :
    cutFromFirst p l = none ↔ ∀ c ∈ l, p c = false := by
  induction l with
  | nil => simp [cutFromFirst]
  | cons a as ih =>
    by_cases hpa : p a = true
    · simp [cutFromFirst, hpa]
    · have hpa' : p a = false := by revert hpa; cases p a <;> simp
      simp [cutFromFirst, hpa', ih]

theorem cutFromFirst_eq_some_iff (p : Char → Bool) (l t : List Char) :
    cutFromFirst p l = some t ↔
      ∃ pre, l = pre ++ t ∧ (∀ c ∈ pre, p c = false) ∧
        ∃ c cs, t = c :: cs ∧ p c = true := by
  induction l with
  | nil =>
    simp only [cutFromFirst]
    constructor
    · intro h; cases h
    · rintro ⟨pre, hl, -, c, cs, rfl, -⟩
      exact absurd hl.symm (by simp)
  | cons a as ih =>
    by_cases hpa : p a = true
    · rw [show cutFromFirst p (a :: as) = some (a :: as) from by
        simp [cutFromFirst, hpa]]
      constructor
      · intro h
        obtain rfl : a :: as = t := Option.some.inj h
        exact ⟨[], by simp, by simp, a, as, rfl, hpa⟩
      · rintro ⟨pre, hl, hpre, c, cs, rfl, hc⟩
        cases pre with
        | nil => simpa using hl
        | cons a' pre' =>
          rw [List.cons_append] at hl
          obtain ⟨rfl, -⟩ := List.cons.inj hl
          exact absurd (hpre a (by simp)) (by simp [hpa])
    · have hpa' : p a = false := by revert hpa; cases p a <;> simp
      rw [show cutFromFirst p (a :: as) = cutFromFirst p as from by
        simp [cutFromFirst, hpa']]
      rw [ih]
      constructor
      · rintro ⟨pre, rfl, hpre, c, cs, rfl, hc⟩
        refine ⟨a :: pre, by simp, ?_, c, cs, rfl, hc⟩
        intro x hx
        rcases List.mem_cons.mp hx with rfl | hx
        · exact hpa'
        · exact hpre x hx
      · rintro ⟨pre, hl, hpre, c, cs, rfl, hc⟩
        cases pre with
        | nil =>
          obtain ⟨rfl, -⟩ := List.cons.inj hl
          exact absurd hc (by simp [hpa'])
        | cons a' pre' =>
          rw [List.cons_append] at hl
          obtain ⟨rfl, rfl⟩ := List.cons.inj hl
          refine ⟨pre', rfl, ?_, c, cs, rfl, hc⟩
          exact fun x hx => hpre x (List.mem_cons_of_mem _ hx)

/-- Splitting a list at the first occurrence of a character is unique. -/
theorem firstSplit_unique {c0 : Char} {p1 p2 s1 s2 : List Char}
    (h : p1 ++ s1 = p2 ++ s2) (h1 : c0 ∉ p1) (h2 : c0 ∉ p2)
    (hs1 : ∃ r, s1 = c0 :: r) (hs2 : ∃ r, s2 = c0 :: r) :
    p1 = p2 ∧ s1 = s2 := by
  induction p1 generalizing p2 with
  | nil =>
    cases p2 with
    | nil => exact ⟨rfl, by simpa using h⟩
    | cons b p2' =>
      obtain ⟨r, rfl⟩ := hs1
      simp only [List.nil_append, List.cons_append] at h
      obtain ⟨rfl, -⟩ := List.cons.inj h
      exact absurd (List.mem_cons_self _ _) h2
  | cons b p1' ih =>
    cases p2 with
    | nil =>
      obtain ⟨r, rfl⟩ := hs2
      simp only [List.nil_append, List.cons_append] at h
      obtain ⟨rfl, -⟩ := List.cons.inj h
      exact absurd (List.mem_cons_self _ _) h1
    | cons b' p2' =>
      simp only [List.cons_append] at h
      obtain ⟨rfl, hrest⟩ := List.cons.inj h
      have h1' : c0 ∉ p1' := fun hx => h1 (List.mem_cons_of_mem _ hx)
      have h2' : c0 ∉ p2' := fun hx => h2 (List.mem_cons_of_mem _ hx)
      obtain ⟨hp, hs⟩ := ih hrest h1' h2'
      exact ⟨by rw [hp], hs⟩

theorem extractJsonArray_eq_some_iff (l s : List Char) :
    extractJsonArray l = some s ↔ ExtractSpec l s := by
  cases h1 : cutFromFirst (fun c => c = '[') l with
  | none =>
    have hval : extractJsonArray l = none := by
      unfold extractJsonArray
      rw [h1]
    have hno := (cutFromFirst_eq_none_iff _ _).mp h1
    rw [hval]
    simp only [false_iff, reduceCtorEq]
    rintro ⟨pre, mid, post, rfl, rfl, -, -⟩
    have : ('[' : Char) ∈ pre ++ ('[' :: (mid ++ [']'])) ++ post := by simp
    simpa using hno _ this
  | some t =>
    obtain ⟨pre1, rfl, hpre1, c, t', rfl, hc⟩ := (cutFromFirst_eq_some_iff _ _ _).mp h1
    have hc' : c = '[' := by simpa using hc
    subst hc'
    have hpre1' : ('[' : Char) ∉ pre1 := fun hm => by simpa using hpre1 _ hm
    cases h2 : cutFromFirst (fun c => c = ']') (('[' :: t').reverse) with
    | none =>
      have hval : extractJsonArray (pre1 ++ '[' :: t') = none := by
        unfold extractJsonArray
        simp only [h1, h2]
      have hno := (cutFromFirst_eq_none_iff _ _).mp h2
      rw [hval]
      simp only [false_iff, reduceCtorEq]
      rintro ⟨pre, mid, post, heq, rfl, hpre, hpost⟩
      rw [List.append_assoc] at heq
      obtain ⟨-, hts⟩ := firstSplit_unique heq hpre1' hpre
        ⟨t', rfl⟩ ⟨mid ++ [']'] ++ post, by simp⟩
      have : (']' : Char) ∈ ('[' :: t').reverse := by
        rw [hts]
        simp
      simpa using hno _ this
    | some u =>
      have hval : extractJsonArray (pre1 ++ '[' :: t') = some u.reverse := by
        unfold extractJsonArray
        simp only [h1, h2]
      rw [hval, Option.some.injEq]
      obtain ⟨pre2, hrev, hpre2, d, u', rfl, hd⟩ := (cutFromFirst_eq_some_iff _ _ _).mp h2
      have hd' : d = ']' := by simpa using hd
      subst hd'
      have hpost2 : (']' : Char) ∉ pre2.reverse := by
        intro hm
        exact absurd (hpre2 _ (List.mem_reverse.mp hm)) (by simp)
      have hsplit : '[' :: t' = (u'.reverse ++ [']']) ++ pre2.reverse := by
        have := congrArg List.reverse hrev
        simpa [List.reverse_append] using this
      cases hu : u'.reverse with
      | nil =>
        rw [hu] at hsplit
        simp at hsplit
      | cons x xs =>
        rw [hu] at hsplit
        simp only [List.cons_append, List.append_assoc] at hsplit
        obtain ⟨rfl, ht'⟩ := List.cons.inj hsplit
        have hs0 : (']' :: u').reverse = '[' :: (xs ++ [']']) := by
          simp [hu]
        constructor
        · rintro rfl
          refine ⟨pre1, xs, pre2.reverse, ?_, hs0, hpre1', hpost2⟩
          rw [hs0, ht']
          simp
        · rintro ⟨pre, mid, post, heq, hs, hpre, hpost⟩
          rw [List.append_assoc] at heq
          obtain ⟨-, hts⟩ := firstSplit_unique heq hpre1' hpre
            ⟨t', rfl⟩ ⟨mid ++ [']'] ++ post, by rw [hs]; simp⟩
          have hrev2 : post.reverse ++ s.reverse = pre2 ++ (']' :: u') := by
            rw [← List.reverse_append, ← hts, hrev]
          have hsrev : ∃ r, s.reverse = ']' :: r := by
            refine ⟨mid.reverse ++ ['['], ?_⟩
            rw [hs]
            simp
          have hpostrev : (']' : Char) ∉ post.reverse := by
            intro hm
            exact hpost (List.mem_reverse.mp hm)
          have hpre2' : (']' : Char) ∉ pre2 := by
            intro hm
            exact absurd (hpre2 _ hm) (by simp)
          obtain ⟨-, hs2⟩ := firstSplit_unique hrev2 hpostrev hpre2' hsrev ⟨u', rfl⟩
          have hss := congrArg List.reverse hs2
          simpa using hss.symm

/-- Failure side of the characterization: no bracketed substring, no match. -/
theorem extractJsonArray_eq_none_iff (l : List Char) :
    extractJsonArray l = none ↔ ∀ s, ¬ ExtractSpec l s := by
  cases h : extractJsonArray l with
  | none =>
    simp only [true_iff]
    intro s hs
    have := (extractJsonArray_eq_some_iff l s).mpr hs
    rw [h] at this
    cases this
  | some t =>
    simp only [false_iff, not_forall, reduceCtorEq]
    exact ⟨t, not_not_intro ((extractJsonArray_eq_some_iff l t).mp h)⟩

/-! Reduction helpers for the route handler under given oracle outcomes. -/

theorem POST_reduce (env : Env) (db : Db) (fd : AnalysisFormData) (gen : GenOut)
    (h1 : env.authOk = true) (h2 : env.body? = some fd)
    (h3 : fd.customerName ≠ "") (h4 : env.connect1Ok = true)
    (h5 : env.insertAnalysisOk = true)
    (hgen : generateBriefs env
        { fd with categoriesSelected :=
            categoriesToUse fd.useMostImpactful fd.categoriesSelected }
        db.nextId
        { db with
          nextId := db.nextId + 1
          analyses := db.analyses ++ [(db.nextId, "processing")] } = gen) :
    POST env db =
      match gen.result with
      | .error _ => { resp := .serverError, db := gen.db, calls := gen.calls }
      | .ok selected =>
        if ¬ env.updateOk then
          { resp := .serverError, db := gen.db, calls := gen.calls }
        else
          { resp := .success db.nextId selected.length
            db := { gen.db with
                    analyses := gen.db.analyses.map fun r =>
                      if r.1 = db.nextId then (r.1, "completed") else r }
            calls := gen.calls } := by
  unfold POST
  rw [h2]
  simp [h1, h3, h4, h5, hgen]

theorem generateBriefs_reduce (env : Env) (fd : AnalysisFormData) (id : Nat)
    (db : Db) (t : String) (sel : List Brief) (h6 : env.apiKey = true)
    (h7 : env.competitive = .ok t)
    (hsel : selectBriefs (gatherCandidates env fd.categoriesSelected)
        fd.briefCount = sel) :
    generateBriefs env fd id db =
      if ¬ env.connect2Ok then
        { result := .error ⟨⟩, db := db
          calls := "competitive"
            :: fd.categoriesSelected.map (fun c => "category:" ++ c) }
      else
        match insertBriefs env.briefInsertFailAt id sel db with
        | .error _ =>
          { result := .error ⟨⟩
            db := insertBriefsDb env.briefInsertFailAt id sel db
            calls := "competitive"
              :: fd.categoriesSelected.map (fun c => "category:" ++ c) }
        | .ok db' =>
          { result := .ok sel, db := db'
            calls := "competitive"
              :: fd.categoriesSelected.map (fun c => "category:" ++ c) } := by
  unfold generateBriefs
  rw [h7]
  simp [h6, hsel]

/-- In every branch of a run that passed the API-key check and the shared
call, the recorded calls are the shared call plus one call per category. -/
theorem generateBriefs_calls (env : Env) (fd : AnalysisFormData) (id : Nat)
    (db : Db) (t : String) (h6 : env.apiKey = true)
    (h7 : env.competitive = .ok t) :
    (generateBriefs env fd id db).calls
      = "competitive" :: fd.categoriesSelected.map (fun c => "category:" ++ c) := by
  rw [generateBriefs_reduce env fd id db t _ h6 h7 rfl]
  split
  · rfl
  · split <;> rfl

/-- A request that passes the auth gate and name validation is never
answered 401 or 400, whatever the remaining oracles do. -/
theorem POST_resp_of_valid (env : Env) (db : Db) (fd : AnalysisFormData)
    (h1 : env.authOk = true) (h2 : env.body? = some fd)
    (h3 : fd.customerName ≠ "") :
    (POST env db).resp ≠ Resp.badRequest
    ∧ (POST env db).resp ≠ Resp.unauthorized := by
  unfold POST
  rw [h2]
  simp only [h1, h3, not_true, not_false_eq_true, if_true, if_false, ite_true,
    ite_false]
  split <;> (try split) <;> (try split) <;> (try split) <;>
    exact ⟨by simp, by simp⟩

theorem insertBriefs_ok_analyses (f : Option Nat) (id : Nat) (sel : List Brief)
    (db db' : Db) (h : insertBriefs f id sel db = .ok db') :
    db'.analyses = db.analyses := by
  unfold insertBriefs at h
  split at h
  · split at h
    · cases h
    · cases h
      rfl
  · cases h
    rfl

theorem insertBriefsDb_analyses (f : Option Nat) (id : Nat) (sel : List Brief)
    (db : Db) : (insertBriefsDb f id sel db).analyses = db.analyses := by
  unfold insertBriefsDb
  split
  · split <;> rfl
  · rfl

/-- Brief generation never touches the analyses table. -/
theorem generateBriefs_db_analyses (env : Env) (fd : AnalysisFormData)
    (id : Nat) (db : Db) :
    (generateBriefs env fd id db).db.analyses = db.analyses := by
  by_cases hk : env.apiKey = true
  · cases hcomp : env.competitive with
    | error e => simp [generateBriefs, hk, hcomp]
    | ok t =>
      rw [generateBriefs_reduce env fd id db t _ hk hcomp rfl]
      split
      · rfl
      · split
        · exact insertBriefsDb_analyses _ _ _ _
        · rename_i db' heq
          exact insertBriefs_ok_analyses _ _ _ _ _ heq
  · simp [generateBriefs, hk]

theorem generateBriefs_result_of_no_key (env : Env) (fd : AnalysisFormData)
    (id : Nat) (db : Db) (hk : env.apiKey = false) :
    (generateBriefs env fd id db).result = .error ⟨⟩ := by
  simp [generateBriefs, hk]

theorem generateBriefs_result_of_comp_error (env : Env) (fd : AnalysisFormData)
    (id : Nat) (db : Db) (e : Unit) (hc : env.competitive = .error e) :
    (generateBriefs env fd id db).result = .error ⟨⟩ := by
  by_cases hk : env.apiKey = true <;> simp [generateBriefs, hk, hc]

/-- The completion update touches only the row with the fresh id. -/
theorem map_completed_of_fresh (l : List (Nat × String)) (id : Nat)
    (h : ∀ r ∈ l, r.1 ≠ id) :
    l.map (fun r => if r.1 = id then (r.1, "completed") else r) = l := by
  induction l with
  | nil => rfl
  | cons a as ih =>
    have ha : a.1 ≠ id := h a (by simp)
    simp only [List.map_cons, if_neg ha]
    rw [ih (fun r hr => h r (List.mem_cons_of_mem _ hr))]

/-! Claim theorems -/

/-- C1: for all integer effort and impact values (so in particular on
[1,10]x[1,10]), `calculateEffortImpactScore` equals
round(((impact * 2) - effort) / 10 * 100); the rounding resolves to
(2*impact - effort) * 10 exactly; (effort=1, impact=10) yields 190,
(effort=10, impact=1) yields -80, and that negative composite score is
produced rather than clamped. -/
theorem claim_C1_composite_score :
    (∀ e i : Int, calculateEffortImpactScore e i
        = round ((((i * 2 : ℚ) - e) / 10) * 100))
    ∧ (∀ e i : Int, calculateEffortImpactScore e i = (2 * i - e) * 10)
    ∧ calculateEffortImpactScore 1 10 = 190
    ∧ calculateEffortImpactScore 10 1 = -80
    ∧ calculateEffortImpactScore 10 1 < 0 := by
  refine ⟨fun e i => rfl, calculateEffortImpactScore_closed, ?_, ?_, ?_⟩ <;>
    rw [calculateEffortImpactScore_closed] <;> norm_num

/-- C8: an unauthenticated request is answered 401 with no database write
and no external call; an authenticated request with a missing customer
name is answered 400, likewise before any write or call. -/
theorem claim_C8_auth_and_validation_gates (env : Env) (db : Db) :
    (env.authOk = false →
      POST env db = { resp := .unauthorized, db := db, calls := [] })
    ∧ (∀ fd, env.authOk = true → env.body? = some fd → fd.customerName = "" →
      POST env db = { resp := .badRequest, db := db, calls := [] }) := by
  constructor
  · intro h
    simp [POST, h]
  · intro fd h1 h2 h3
    simp [POST, h1, h2, h3]

theorem claim_C8_witness :
    POST envNoAuth db0 = { resp := .unauthorized, db := db0, calls := [] }
    ∧ POST envBlankName db0 = { resp := .badRequest, db := db0, calls := [] } :=
  ⟨(claim_C8_auth_and_validation_gates envNoAuth db0).1 rfl,
   (claim_C8_auth_and_validation_gates envBlankName db0).2 _ rfl rfl rfl⟩

/-- C7 counterexample: a request with briefCount = 31 (outside 1..30) is
not rejected at request validation; the handler processes it to success. -/
theorem claim_C7_counterexample :
    fd31.briefCount = 31
    ∧ briefCountSliderMax < fd31.briefCount
    ∧ (POST env31 db0).resp = .success 0 2 := by
  refine ⟨rfl, by decide, ?_⟩
  simp [POST, generateBriefs, gatherCandidates, generateCategoryBriefs,
        selectBriefs, insertBriefs, env31, fd31, fdFix, db0, parseFix,
        rawHigh, rawLow, calcOpt_some, categoriesToUse, sortDesc, insertDesc,
        scoreKey, extractJsonArray, cutFromFirst, respText, envFix]

/-- C7 amended: the 1..30 range (with default 15) for briefCount exists
only in the client form (range slider bounds and initial state); the API
route's request validation checks only the customer name and accepts any
briefCount, so out-of-range values are processed, not rejected. -/
theorem claim_C7_briefCount_validation :
    formInitialBriefCount = 15
    ∧ briefCountSliderMin = 1
    ∧ briefCountSliderMax = 30
    ∧ (∀ (env : Env) (db : Db) (fd : AnalysisFormData),
        env.authOk = true → env.body? = some fd → fd.customerName ≠ "" →
        (POST env db).resp ≠ .badRequest ∧ (POST env db).resp ≠ .unauthorized) := by
  refine ⟨rfl, rfl, rfl, ?_⟩
  intro env db fd h1 h2 h3
  unfold POST
  rw [h2]
  simp only [h1, h3, not_true, not_false_eq_true, if_true, if_false, ite_true,
    ite_false]
  split <;> (try split) <;> (try split) <;> (try split) <;>
    exact ⟨by simp, by simp⟩

theorem claim_C7_witness :
    (POST env31 db0).resp ≠ Resp.badRequest
    ∧ (POST env31 db0).resp ≠ Resp.unauthorized :=
  claim_C7_briefCount_validation.2.2.2 env31 db0 fd31 rfl rfl (by decide)

/-- C9: with useMostImpactful false and an empty category selection, the
request is not rejected and all nine fixed categories are processed (the
empty selection silently defaults to the full list). -/
theorem claim_C9_empty_selection_defaults :
    categoriesToUse false [] = BRIEF_CATEGORIES
    ∧ BRIEF_CATEGORIES.length = 9
    ∧ (∀ (env : Env) (db : Db) (fd : AnalysisFormData) (t : String),
        env.authOk = true → env.body? = some fd → fd.customerName ≠ "" →
        env.connect1Ok = true → env.insertAnalysisOk = true →
        env.apiKey = true → env.competitive = .ok t →
        fd.useMostImpactful = false → fd.categoriesSelected = [] →
        (POST env db).calls
          = "competitive" :: BRIEF_CATEGORIES.map (fun c => "category:" ++ c)
        ∧ (POST env db).resp ≠ .badRequest) := by
  refine ⟨rfl, rfl, ?_⟩
  intro env db fd t h1 h2 h3 h4 h5 h6 h7 h8 h9
  refine ⟨?_, (POST_resp_of_valid env db fd h1 h2 h3).1⟩
  have hcalls := generateBriefs_calls env
    { fd with categoriesSelected :=
        categoriesToUse fd.useMostImpactful fd.categoriesSelected }
    db.nextId
    { db with
      nextId := db.nextId + 1
      analyses := db.analyses ++ [(db.nextId, "processing")] }
    t h6 h7
  rw [POST_reduce env db fd _ h1 h2 h3 h4 h5 rfl]
  split
  · simpa [categoriesToUse, h8, h9] using hcalls
  · split
    · simpa [categoriesToUse, h8, h9] using hcalls
    · simpa [categoriesToUse, h8, h9] using hcalls

theorem claim_C9_witness :
    (POST envNine db0).calls
      = "competitive" :: BRIEF_CATEGORIES.map (fun c => "category:" ++ c)
    ∧ (POST envNine db0).resp ≠ Resp.badRequest :=
  claim_C9_empty_selection_defaults.2.2 envNine db0 fdNine "analysis"
    rfl rfl (by decide) rfl rfl rfl rfl rfl rfl

/-- C10: a candidate whose effort or impact score is absent or non-numeric
gets composite score NaN (modelled `none`), not an error; the comparator
reads that score as 0, so the candidate is ordered exactly as if its
composite score were 0, and it remains eligible: a NaN-scored candidate is
selected over a negative-scored one and is persisted. -/
theorem claim_C10_nan_scores_eligible :
    (∀ i, calculateEffortImpactScoreOpt none i = none)
    ∧ (∀ e, calculateEffortImpactScoreOpt e none = none)
    ∧ (∀ b : Brief, scoreKey { b with effort_impact_score := none } = 0)
    ∧ (∀ (pool : List Brief) (n : Nat),
        selectBriefs (pool.map withScoreZero) n
          = (selectBriefs pool n).map withScoreZero)
    ∧ selectBriefs [briefLow, briefNaN] 1 = [briefNaN]
    ∧ (generateBriefs envNaN fdNaN 0 db0).result = .ok [briefNaN]
    ∧ (generateBriefs envNaN fdNaN 0 db0).db.briefs = [(0, briefNaN)] := by
  have hkey : ∀ b, scoreKey (withScoreZero b) = scoreKey b := by
    intro b
    cases hb : b.effort_impact_score <;> simp [withScoreZero, scoreKey, hb]
  refine ⟨fun i => rfl, calcOpt_right_none, fun b => rfl, ?_, ?_, ?_, ?_⟩
  · intro pool n
    unfold selectBriefs
    rw [sortDesc_map scoreKey withScoreZero hkey pool, List.map_take]
  · decide
  · rw [generateBriefs_reduce envNaN fdNaN 0 db0 "analysis" _ rfl rfl rfl]
    simp [gatherCandidates, generateCategoryBriefs, selectBriefs, insertBriefs,
      envNaN, fdNaN, fdFix, envFix, rawLow, rawNaN, briefNaN, calcOpt_some,
      calcOpt_none_left, sortDesc, insertDesc, scoreKey, extractJsonArray,
      cutFromFirst, respText]
  · rw [generateBriefs_reduce envNaN fdNaN 0 db0 "analysis" _ rfl rfl rfl]
    simp [gatherCandidates, generateCategoryBriefs, selectBriefs, insertBriefs,
      envNaN, fdNaN, fdFix, envFix, rawLow, rawNaN, briefNaN, calcOpt_some,
      calcOpt_none_left, sortDesc, insertDesc, scoreKey, extractJsonArray,
      cutFromFirst, respText, db0]

/-- C2: for every candidate pool and requested count, selection returns
min(count, pool size) briefs, sorted descending by composite score with
ties kept in original encounter order (stable sort: filtering the sorted
pool by any key value preserves the original order, and the returned list
is a prefix of the sorted pool), and on a fully successful run exactly
those briefs are persisted.  Selection is a pure function of the pool and
count, so identical input yields identical output. -/
theorem claim_C2_selection_invariant :
    (∀ (pool : List Brief) (n : Nat),
        (selectBriefs pool n).length = min n pool.length
        ∧ (selectBriefs pool n).Pairwise (fun a b => scoreKey b ≤ scoreKey a)
        ∧ selectBriefs pool n <+: sortDesc scoreKey pool
        ∧ List.Perm (sortDesc scoreKey pool) pool
        ∧ (∀ k : Int, (sortDesc scoreKey pool).filter (fun x => scoreKey x = k)
            = pool.filter (fun x => scoreKey x = k)))
    ∧ (∀ (env : Env) (db : Db) (fd : AnalysisFormData) (t : String),
        env.authOk = true → env.body? = some fd → fd.customerName ≠ "" →
        env.connect1Ok = true → env.insertAnalysisOk = true →
        env.apiKey = true → env.competitive = .ok t → env.connect2Ok = true →
        env.briefInsertFailAt = none → env.updateOk = true →
        (POST env db).db.briefs = db.briefs ++
          (selectBriefs
            (gatherCandidates env
              (categoriesToUse fd.useMostImpactful fd.categoriesSelected))
            fd.briefCount).map (fun b => (db.nextId, b))
        ∧ (POST env db).resp = .success db.nextId
            (selectBriefs
              (gatherCandidates env
                (categoriesToUse fd.useMostImpactful fd.categoriesSelected))
              fd.briefCount).length) := by
  constructor
  · intro pool n
    refine ⟨?_, ?_, ?_, sortDesc_perm scoreKey pool, filter_sortDesc scoreKey pool⟩
    · unfold selectBriefs
      rw [List.length_take, length_sortDesc]
    · exact (pairwise_sortDesc scoreKey pool).sublist (List.take_sublist _ _)
    · exact List.take_prefix _ _
  · intro env db fd t h1 h2 h3 h4 h5 h6 h7 h8 h9 h10
    rw [POST_reduce env db fd _ h1 h2 h3 h4 h5 rfl]
    rw [generateBriefs_reduce env
      { fd with categoriesSelected :=
          categoriesToUse fd.useMostImpactful fd.categoriesSelected }
      db.nextId
      { db with
        nextId := db.nextId + 1
        analyses := db.analyses ++ [(db.nextId, "processing")] }
      t _ h6 h7 rfl]
    simp [h8, h9, h10, insertBriefs]

theorem claim_C2_witness :
    (POST envFix db0).db.briefs = db0.briefs ++
      (selectBriefs
        (gatherCandidates envFix
          (categoriesToUse fdFix.useMostImpactful fdFix.categoriesSelected))
        fdFix.briefCount).map (fun b => (db0.nextId, b))
    ∧ (POST envFix db0).resp = .success db0.nextId
        (selectBriefs
          (gatherCandidates envFix
            (categoriesToUse fdFix.useMostImpactful fdFix.categoriesSelected))
          fdFix.briefCount).length :=
  claim_C2_selection_invariant.2 envFix db0 fdFix "analysis"
    rfl rfl (by decide) rfl rfl rfl rfl rfl rfl rfl

/-- C3 counterexample: substitution is sequential, not simultaneous.  With
customerName = "[TOPICS]" and topics = ["t"], the template occurrence of
[CUSTOMER_NAME] does not end up holding the stringified customer name
"[TOPICS]" (as the claim requires): the later topics pass rewrites it to
"t". -/
theorem claim_C3_counterexample :
    createCompetitiveAnalysisPrompt fdSeq
        ≠ "[TOPICS]".data ++ "\n\n".data ++ technicalContext fdSeq
    ∧ createCompetitiveAnalysisPrompt fdSeq
        = "t".data ++ "\n\n".data ++ technicalContext fdSeq := by
  constructor <;> decide

/-- C3 amended: prompt assembly substitutes the four tokens sequentially
([CUSTOMER_NAME], then [COMPETITORS], [VISIBILITY_SCORE], [TOPICS]), so a
substituted value that itself contains a later token is substituted again;
on templates and values free of that interaction it behaves as the claim
says: a template holding none of the four tokens (in particular any
unrecognised bracketed token) passes through unchanged; on the spec's
example context every occurrence of each token is replaced by the
stringified value (lists joined with ", ", the score as a plain decimal)
with the unknown token left intact; the fixed technical-context block is
appended, and the free-text addendum is appended exactly when the
technical analysis is non-empty and non-whitespace. -/
theorem claim_C3_prompt_substitution :
    (∀ fd : AnalysisFormData,
        occursB "[CUSTOMER_NAME]".data (effectiveTemplate fd).data = false →
        occursB "[COMPETITORS]".data (effectiveTemplate fd).data = false →
        occursB "[VISIBILITY_SCORE]".data (effectiveTemplate fd).data = false →
        occursB "[TOPICS]".data (effectiveTemplate fd).data = false →
        createCompetitiveAnalysisPrompt fd
          = (effectiveTemplate fd).data ++ "\n\n".data ++ technicalContext fd)
    ∧ createCompetitiveAnalysisPrompt fdSub
        = ("Hello Acme and X, Y at 42 on search with [UNKNOWN] again Acme").data
          ++ "\n\n".data ++ technicalContext fdSub
    ∧ technicalContext fdSub = technicalContextBase fdSub
    ∧ technicalContext fdSub2
        = technicalContextBase fdSub2 ++ technicalAddendum fdSub2
    ∧ (∀ fd : AnalysisFormData, isBlank fd.technicalAnalysis = true →
        technicalContext fd = technicalContextBase fd)
    ∧ (∀ fd : AnalysisFormData, isBlank fd.technicalAnalysis = false →
        technicalContext fd = technicalContextBase fd ++ technicalAddendum fd) := by
  refine ⟨?_, by decide, by decide, by decide, ?_, ?_⟩
  · intro fd o1 o2 o3 o4
    unfold createCompetitiveAnalysisPrompt
    rw [replaceAll_of_not_occurs _ _ _ o1, replaceAll_of_not_occurs _ _ _ o2,
        replaceAll_of_not_occurs _ _ _ o3, replaceAll_of_not_occurs _ _ _ o4]
  · intro fd h
    simp [technicalContext, h]
  · intro fd h
    simp [technicalContext, h]

theorem claim_C3_witness :
    createCompetitiveAnalysisPrompt fdPlain
      = (effectiveTemplate fdPlain).data ++ "\n\n".data ++ technicalContext fdPlain :=
  claim_C3_prompt_substitution.1 fdPlain (by decide) (by decide) (by decide)
    (by decide)

/-- C4: the parser extracts exactly the substring from the first `[` to
the last `]` (greedy across the whole text) — characterised by the
decomposition predicate `ExtractSpec` — and when no such substring exists
the category yields an empty candidate sequence, not an error. -/
theorem claim_C4_extraction :
    (∀ l s : List Char, extractJsonArray l = some s ↔ ExtractSpec l s)
    ∧ (∀ l : List Char, extractJsonArray l = none ↔ ∀ s, ¬ ExtractSpec l s)
    ∧ (∀ (parse : List Char → Except Unit (List RawBrief)) (cat : String)
        (l : List Char), extractJsonArray l = none →
        generateCategoryBriefs parse cat (.ok l) = []) := by
  refine ⟨extractJsonArray_eq_some_iff, extractJsonArray_eq_none_iff, ?_⟩
  intro parse cat l h
  simp [generateCategoryBriefs, h]

theorem claim_C4_witness :
    extractJsonArray "model declined to answer".data = none
    ∧ generateCategoryBriefs parseFix "Technology"
        (.ok "model declined to answer".data) = [] :=
  ⟨by decide,
   claim_C4_extraction.2.2 parseFix "Technology" "model declined to answer".data
     (by decide)⟩

/-- C5: when one category's response holds a bracketed substring that
fails to parse as JSON, that category contributes exactly zero candidates,
the pool is the concatenation of the other categories' candidates, and the
overall run still completes successfully with those candidates. -/
theorem claim_C5_malformed_category_recovers (env : Env) (db : Db)
    (fd : AnalysisFormData) (t c0 : String) (l1 l2 : List String)
    (r s : List Char)
    (hresp : env.categoryResponse c0 = .ok r)
    (hex : extractJsonArray r = some s)
    (hparse : env.jsonParse s = .error ⟨⟩)
    (h1 : env.authOk = true) (h2 : env.body? = some fd)
    (h3 : fd.customerName ≠ "") (h4 : env.connect1Ok = true)
    (h5 : env.insertAnalysisOk = true) (h6 : env.apiKey = true)
    (h7 : env.competitive = .ok t) (h8 : env.connect2Ok = true)
    (h9 : env.briefInsertFailAt = none) (h10 : env.updateOk = true)
    (hcats : categoriesToUse fd.useMostImpactful fd.categoriesSelected
        = l1 ++ c0 :: l2) :
    generateCategoryBriefs env.jsonParse c0 (env.categoryResponse c0) = []
    ∧ gatherCandidates env (l1 ++ c0 :: l2)
        = gatherCandidates env l1 ++ gatherCandidates env l2
    ∧ (POST env db).resp = .success db.nextId
        (selectBriefs (gatherCandidates env l1 ++ gatherCandidates env l2)
          fd.briefCount).length := by
  have hzero : generateCategoryBriefs env.jsonParse c0 (env.categoryResponse c0)
      = [] := by
    rw [hresp]
    simp [generateCategoryBriefs, hex, hparse]
  have hgather : gatherCandidates env (l1 ++ c0 :: l2)
      = gatherCandidates env l1 ++ gatherCandidates env l2 := by
    unfold gatherCandidates
    rw [List.map_append, List.map_cons, List.flatten_append, List.flatten_cons,
      hzero]
    simp
  refine ⟨hzero, hgather, ?_⟩
  rw [POST_reduce env db fd _ h1 h2 h3 h4 h5 rfl]
  rw [generateBriefs_reduce env
    { fd with categoriesSelected :=
        categoriesToUse fd.useMostImpactful fd.categoriesSelected }
    db.nextId
    { db with
      nextId := db.nextId + 1
      analyses := db.analyses ++ [(db.nextId, "processing")] }
    t _ h6 h7 rfl]
  simp [h8, h9, h10, insertBriefs, hcats, hgather]

theorem claim_C5_witness :
    generateCategoryBriefs envMixed.jsonParse "Bad"
        (envMixed.categoryResponse "Bad") = []
    ∧ gatherCandidates envMixed (["Technology"] ++ "Bad" :: [])
        = gatherCandidates envMixed ["Technology"] ++ gatherCandidates envMixed []
    ∧ (POST envMixed db0).resp = .success db0.nextId
        (selectBriefs
          (gatherCandidates envMixed ["Technology"] ++ gatherCandidates envMixed [])
          fdMixed.briefCount).length :=
  claim_C5_malformed_category_recovers envMixed db0 fdMixed "analysis" "Bad"
    ["Technology"] [] ("x [bad] y".data) ("[bad]".data)
    (by decide) (by decide) (by decide) rfl rfl (by decide) rfl rfl rfl rfl rfl
    rfl rfl (by decide)

/-- C6: the lifecycle is the two-step machine: records are created in
`processing`; the only transition ever written is to `completed`, and only
after the whole generation-and-persistence pipeline succeeded; on any
unrecoverable failure (missing credential, failing shared call, failing
status update — and every other failure) no transition happens: the
analyses table is either untouched or holds the new record still in
`processing`, with the error surfaced to the caller. -/
theorem claim_C6_lifecycle (env : Env) (db : Db)
    (hfresh : ∀ r ∈ db.analyses, r.1 ≠ db.nextId) :
    ((POST env db).resp.isSuccess = true →
      (POST env db).db.analyses = db.analyses ++ [(db.nextId, "completed")])
    ∧ ((POST env db).resp.isSuccess = false →
      (POST env db).db.analyses = db.analyses
      ∨ (POST env db).db.analyses = db.analyses ++ [(db.nextId, "processing")])
    ∧ (∀ fd : AnalysisFormData, env.authOk = true → env.body? = some fd →
        fd.customerName ≠ "" → env.connect1Ok = true →
        env.insertAnalysisOk = true →
        (env.apiKey = false ∨ (∃ e, env.competitive = .error e)
          ∨ env.updateOk = false) →
        (POST env db).resp = .serverError
        ∧ (POST env db).db.analyses = db.analyses ++ [(db.nextId, "processing")]) := by
  by_cases h1 : env.authOk = true
  case neg =>
    have hP : POST env db = { resp := .unauthorized, db := db, calls := [] } := by
      simp [POST, h1]
    rw [hP]
    refine ⟨fun h => by simp [Resp.isSuccess] at h, fun _ => Or.inl rfl, ?_⟩
    intro fd ha
    exact absurd ha h1
  case pos =>
  cases h2 : env.body? with
  | none =>
    have hP : POST env db = { resp := .serverError, db := db, calls := [] } := by
      simp [POST, h1, h2]
    rw [hP]
    refine ⟨fun h => by simp [Resp.isSuccess] at h, fun _ => Or.inl rfl, ?_⟩
    intro fd ha hb
    cases hb
  | some fd0 =>
    by_cases h3 : fd0.customerName = ""
    · have hP : POST env db = { resp := .badRequest, db := db, calls := [] } := by
        simp [POST, h1, h2, h3]
      rw [hP]
      refine ⟨fun h => by simp [Resp.isSuccess] at h, fun _ => Or.inl rfl, ?_⟩
      intro fd ha hb hn
      obtain rfl := Option.some.inj hb.symm
      exact absurd h3 hn
    · by_cases h4 : env.connect1Ok = true
      case neg =>
        have hP : POST env db = { resp := .serverError, db := db, calls := [] } := by
          unfold POST
          rw [h2]
          simp [h1, h3, h4]
        rw [hP]
        refine ⟨fun h => by simp [Resp.isSuccess] at h, fun _ => Or.inl rfl, ?_⟩
        intro fd ha hb hn hc1
        exact absurd hc1 h4
      case pos =>
      by_cases h5 : env.insertAnalysisOk = true
      case neg =>
        have hP : POST env db = { resp := .serverError, db := db, calls := [] } := by
          unfold POST
          rw [h2]
          simp [h1, h3, h4, h5]
        rw [hP]
        refine ⟨fun h => by simp [Resp.isSuccess] at h, fun _ => Or.inl rfl, ?_⟩
        intro fd ha hb hn hc1 hi
        exact absurd hi h5
      case pos =>
      rw [POST_reduce env db fd0 _ h1 h2 h3 h4 h5 rfl]
      set G := generateBriefs env
        { fd0 with categoriesSelected :=
            categoriesToUse fd0.useMostImpactful fd0.categoriesSelected }
        db.nextId
        { db with
          nextId := db.nextId + 1
          analyses := db.analyses ++ [(db.nextId, "processing")] } with hG
      have hga : G.db.analyses = db.analyses ++ [(db.nextId, "processing")] := by
        rw [hG, generateBriefs_db_analyses]
      cases hres : G.result with
      | error e =>
        simp only [hres]
        refine ⟨fun h => by simp [Resp.isSuccess] at h, fun _ => Or.inr hga, ?_⟩
        intro fd ha hb hn hc1 hi hdis
        exact ⟨trivial, hga⟩
      | ok sel =>
        by_cases hupd : env.updateOk = true
        · simp only [hres]
          rw [if_neg (show ¬ ¬ env.updateOk = true from fun hc => hc hupd)]
          have hmap : (G.db.analyses.map fun r =>
              if r.1 = db.nextId then (r.1, "completed") else r)
              = db.analyses ++ [(db.nextId, "completed")] := by
            rw [hga, List.map_append, map_completed_of_fresh _ _ hfresh]
            simp
          refine ⟨fun _ => by simpa using hmap,
                  fun h => by simp [Resp.isSuccess] at h, ?_⟩
          intro fd ha hb hn hc1 hi hdis
          exfalso
          rcases hdis with hk | ⟨e, hce⟩ | hu
          · have herr := generateBriefs_result_of_no_key env
              { fd0 with categoriesSelected :=
                  categoriesToUse fd0.useMostImpactful fd0.categoriesSelected }
              db.nextId
              { db with
                nextId := db.nextId + 1
                analyses := db.analyses ++ [(db.nextId, "processing")] } hk
            rw [← hG, hres] at herr
            cases herr
          · have herr := generateBriefs_result_of_comp_error env
              { fd0 with categoriesSelected :=
                  categoriesToUse fd0.useMostImpactful fd0.categoriesSelected }
              db.nextId
              { db with
                nextId := db.nextId + 1
                analyses := db.analyses ++ [(db.nextId, "processing")] } e hce
            rw [← hG, hres] at herr
            cases herr
          · rw [hu] at hupd
            cases hupd
        · simp only [hres]
          rw [if_pos hupd]
          refine ⟨fun h => by simp [Resp.isSuccess] at h, fun _ => Or.inr hga, ?_⟩
          intro fd ha hb hn hc1 hi hdis
          exact ⟨rfl, hga⟩

theorem claim_C6_witness :
    (POST envNoKey db0).resp = Resp.serverError
    ∧ (POST envNoKey db0).db.analyses
        = db0.analyses ++ [(db0.nextId, "processing")] :=
  (claim_C6_lifecycle envNoKey db0 (by simp [db0])).2.2 fdFix rfl rfl
    (by decide) rfl rfl (Or.inl rfl)

end Playbook
